import Mathlib

/-!
# Formal model of the Q-learning / DQN Flappy-Bird trainer

Shallow embedding of the repository's reinforcement-learning core:

* `QL` models the tabular agent (`src/rl/qLearning.js`, shipped here as
  `src/unnamed/part_000`): sparse Q-table with lazy initialization, the
  one-step Bellman update, and `saveBrain` / `loadBrain` persistence.
* `DQN` models the neural agent (`src/rl/dqn.js`): the replay buffer with
  its three sampling strategies, the batched target computation of
  `DQNAgent.train`, the guard/flag control flow of `train`, and
  `DQNAgent.loadBrain`.
* `Game` models the state construction of the DQN game scene
  (`src/unnamed/part_001`).

JavaScript numbers are modelled as exact rationals (`ℚ`), JS array
indexing (which yields `undefined` out of range) as `Option`, and a
propagated JS exception as `Except.error` (or an explicit `Bool` flag).
External effects (TensorFlow `fit`/`predict`, `JSON` serialization,
`Math.random`) are passed in as explicit function arguments, so every
definition stays executable.
-/

/-- The closed action enumeration shared by both agents:
`ACTION_IDLE = 0`, `ACTION_FLAP = 1`. -/
inductive ActionId where
  | idle : ActionId
  | flap : ActionId
deriving DecidableEq, Repr

namespace QL

/-- Learning rate `alpha = 0.2` of the tabular agent. -/
def alpha : ℚ := 1/5

/-- Discount factor `gamma = 1.0` of the tabular agent. -/
def gamma : ℚ := 1

/-- One Q-table row: the two action values stored under a state key
(`Q[state][ACTION_IDLE]` and `Q[state][ACTION_FLAP]`). -/
structure QEntry where
  idle : ℚ
  flap : ℚ
deriving DecidableEq, Repr

/-- Read the component of a row selected by an action id. -/
def QEntry.get (e : QEntry) : ActionId → ℚ
  | .idle => e.idle
  | .flap => e.flap

/-- Write the component of a row selected by an action id. -/
def QEntry.set (e : QEntry) : ActionId → ℚ → QEntry
  | .idle, v => { e with idle := v }
  | .flap, v => { e with flap := v }

/-- The sparse Q-table `Q = {}`: a JS object modelled as an ordered
association list from state keys to rows (property lookup takes the
first matching key). -/
abbrev QTable := List (String × QEntry)

/-- JS property read `Q[state]`: `none` models `undefined`. -/
def qlookup : QTable → String → Option QEntry
  | [], _ => none
  | (k, e) :: t, s => if k = s then some e else qlookup t s

/-- `getQ(state)`: lazily materializes an unseen state with both action
entries `0`, returning the (possibly extended) table together with the
row that `Q[state]` now refers to. -/
def getQ (t : QTable) (s : String) : QTable × QEntry :=
  match qlookup t s with
  | some e => (t, e)
  | none => (t ++ [(s, ⟨0, 0⟩)], ⟨0, 0⟩)

/-- In-place JS assignment `Q[state][action] = v`, expressed as a pure
rewrite of the entry stored under `state`. -/
def qset : QTable → String → ActionId → ℚ → QTable
  | [], _, _, _ => []
  | (k, e) :: t, s, a, v =>
      (k, if k = s then e.set a v else e) :: qset t s a v

/-- `updateQ(state, action, reward, nextState)`: the one-step tabular
Q-learning update of the source, including the two lazy `getQ` reads. -/
def updateQ (t : QTable) (s : String) (a : ActionId) (r : ℚ) (ns : String) : QTable :=
  let p1 := getQ t s
  let currentQ := p1.2.get a
  let p2 := getQ p1.1 ns
  let maxNextQ := max (p2.2.get .idle) (p2.2.get .flap)
  qset p2.1 s a (currentQ + alpha * (r + gamma * maxNextQ - currentQ))

/-- The action value an observer reads for `(s, a)`: the stored value,
or the lazy default `0` when `s` has not been materialized. -/
def qvalD (t : QTable) (s : String) (a : ActionId) : ℚ :=
  ((qlookup t s).getD ⟨0, 0⟩).get a

/-- The tabular agent's module state: the table `Q` and the module-level
exploration rate `epsilon`. -/
structure TabularBrain where
  Q : QTable
  epsilon : ℚ
deriving DecidableEq, Repr

/-- Parsed `JSON.parse` view of a persisted record `{Q, epsilon,
generation}`. A field is `none` when absent from the parsed object
(`undefined` in JS); a present numeric field equal to `0` is falsy. -/
structure BrainData where
  Q : Option QTable
  epsilon : Option ℚ
  generation : Option ℤ
deriving DecidableEq, Repr

/-- The `{success, generation}` record both `loadBrain`s return. -/
structure LoadResult where
  success : Bool
  generation : ℤ
deriving DecidableEq, Repr

/-- `saveBrain(gen)`: the value written to
`localStorage['flappy_brain']`, namely `JSON.stringify({Q, epsilon,
generation: gen || 1})`. The serialization target `σ` abstracts the JSON
string; `stringify` is the external `JSON.stringify`. The `gen || 1`
falsy-default replaces a zero generation by `1` at save time. -/
def saveBrain {σ : Type} (stringify : BrainData → σ) (st : TabularBrain) (gen : ℤ) : σ :=
  stringify
    { Q := some st.Q
      epsilon := some st.epsilon
      generation := some (if gen = 0 then 1 else gen) }

/-- `loadBrain()` of the tabular agent. `storage` is
`localStorage.getItem('flappy_brain')` (`none` = missing). `parse` is
the external `JSON.parse`; `parse` returning `none` models a parse
failure, which the source does NOT catch, so it propagates as
`Except.error`. `parsed.epsilon || epsilon` and `parsed.generation || 1`
fall back when the parsed field is absent or falsy (zero). On the
`success = false` paths the in-memory brain `st` is left unchanged. -/
def loadBrain {σ : Type} (st : TabularBrain) (storage : Option σ)
    (parse : σ → Option BrainData) : Except Unit (TabularBrain × LoadResult) :=
  match storage with
  | some data =>
    match parse data with
    | none => .error ()
    | some parsed =>
      match parsed.Q with
      | some q =>
          let eps := match parsed.epsilon with
            | some e => if e = 0 then st.epsilon else e
            | none => st.epsilon
          let gen : ℤ := match parsed.generation with
            | some g => if g = 0 then 1 else g
            | none => 1
          .ok ({ Q := q, epsilon := eps }, { success := true, generation := gen })
      | none => .ok (st, { success := false, generation := 1 })
  | none => .ok (st, { success := false, generation := 1 })

end QL

namespace DQN

/-- Discount factor `gamma = 0.99` of the neural agent. -/
def gamma : ℚ := 99/100

/-- `BATCH_SIZE = 64`. -/
def BATCH_SIZE : ℕ := 64

/-- `REPLAY_BUFFER_SIZE = 30000`. -/
def REPLAY_BUFFER_SIZE : ℕ := 30000

/-- `TARGET_UPDATE_FREQ = 500`. -/
def TARGET_UPDATE_FREQ : ℕ := 500

/-- `TRAIN_THROTTLE = 2`. -/
def TRAIN_THROTTLE : ℕ := 2

/-- `EPSILON_MIN = 0.001`. -/
def EPSILON_MIN : ℚ := 1/1000

/-- `EPSILON_DECAY = 0.9995`. -/
def EPSILON_DECAY : ℚ := 9995/10000

/-- The input dimension `[7]` hard-coded in `createModel`'s first dense
layer and in every `tf.tensor2d(..., [_, 7])` call of `dqn.js`. -/
def createModelInputDim : ℕ := 7

/-- The output dimension `2` of `createModel`'s final dense layer. -/
def createModelOutputDim : ℕ := 2

/-- One stored experience `{state, action, reward, nextState, done}`. -/
structure Transition where
  state : List ℚ
  action : ActionId
  reward : ℚ
  nextState : List ℚ
  done : Bool
deriving DecidableEq, Repr

/-- The replay buffer: `maxSize` plus the backing JS array. -/
structure ReplayBuffer where
  maxSize : ℕ
  buffer : List Transition
deriving DecidableEq, Repr

/-- `size()`. -/
def ReplayBuffer.size (b : ReplayBuffer) : ℕ := b.buffer.length

/-- `add(state, action, reward, nextState, done)`: when the buffer has
reached `maxSize`, `shift()` removes the oldest entry, then `push`
appends the new transition. -/
def ReplayBuffer.add (b : ReplayBuffer) (t : Transition) : ReplayBuffer :=
  let buf := if b.maxSize ≤ b.buffer.length then b.buffer.tail else b.buffer
  { b with buffer := buf ++ [t] }

/-- JS array read `arr[i]` with an integer index: `none` models
`undefined` (negative or past-the-end index). -/
def jsGetI {α : Type} (l : List α) (i : ℤ) : Option α :=
  if 0 ≤ i then l.get? i.toNat else none

/-- The destructuring swap `[a[i], a[j]] = [a[j], a[i]]`, modelled for
in-range indices (the only case the samplers reach when every random
draw lies in `[0, 1)`); out-of-range indices leave the array unchanged. -/
def listSwap {α : Type} (l : List α) (i j : ℕ) : List α :=
  match l.get? i, l.get? j with
  | some a, some b => (l.set i b).set j a
  | _, _ => l

/-- The Fisher–Yates loop
`for (i = len-1; i > 0; i--) { j = floor(random()*(i+1)); swap }`
shared by two samplers, recursing on the loop index `i`; `off` numbers
the sequential `Math.random()` draws taken from the stream `rand`. -/
def jsShuffleGo {α : Type} (rand : ℕ → ℚ) : ℕ → List α → ℕ → List α
  | _, l, 0 => l
  | off, l, im1 + 1 =>
      let i := im1 + 1
      let j := (⌊rand off * ((i : ℚ) + 1)⌋).toNat
      jsShuffleGo rand (off + 1) (listSwap l i j) im1

/-- Entry point of the shuffle loop (first index `batch.length - 1`). -/
def jsShuffle {α : Type} (rand : ℕ → ℚ) (off : ℕ) (l : List α) : List α :=
  jsShuffleGo rand off l (l.length - 1)

/-- `sampleRandomBasic(batchSize)`: `batchSize` independent reads
`buffer[floor(random() * buffer.length)]`; on an empty buffer each read
is `undefined` (`none`) and is still pushed into the batch. -/
def ReplayBuffer.sampleRandomBasic (b : ReplayBuffer) (batchSize : ℕ) (rand : ℕ → ℚ) :
    List (Option Transition) :=
  (List.range batchSize).map
    (fun i => jsGetI b.buffer ⌊rand i * (b.buffer.length : ℚ)⌋)

/-- `sampleLastPrioritizedAndRandom(batchSize)`: the newest
`floor(batchSize * 0.25)` entries (newest first), then
`batchSize - numRecent` uniform draws (guarded by a non-empty buffer),
then a Fisher–Yates shuffle of the combined batch. The uniform draws
consume `rand 0, rand 1, ...`; the shuffle consumes the following
entries of the stream. -/
def ReplayBuffer.sampleLastPrioritizedAndRandom (b : ReplayBuffer) (batchSize : ℕ)
    (rand : ℕ → ℚ) : List (Option Transition) :=
  let len := b.buffer.length
  let numRecent := batchSize / 4
  let numRandom := batchSize - numRecent
  let recentStart := len - numRecent
  let part1 := (List.range (len - recentStart)).map
    (fun (k : ℕ) => jsGetI b.buffer ((len : ℤ) - 1 - (k : ℤ)))
  let part2 :=
    if 0 < numRandom ∧ 0 < len then
      (List.range numRandom).map (fun k => jsGetI b.buffer ⌊rand k * (len : ℚ)⌋)
    else []
  jsShuffle rand (if 0 < numRandom ∧ 0 < len then numRandom else 0) (part1 ++ part2)

/-- The running cumulative sums `cumsum` built by
`for (p of probs) { sum += p; cumsum.push(sum) }`. -/
def cumsumFrom (acc : ℚ) : List ℚ → List ℚ
  | [] => []
  | p :: ps => (acc + p) :: cumsumFrom (acc + p) ps

/-- The binary search of `sampleRewardPrioritized`: the JS loop keeps
`low`/`high` with `while (low <= high)`; here `hi1 = high + 1` so both
bounds stay naturals, `mid = floor((low + high) / 2) = (low + hi1 - 1) / 2`,
and the returned index is the final `low`. -/
def bsearchGo (cumsum : List ℚ) (r : ℚ) (low hi1 : ℕ) : ℕ :=
  if h : low < hi1 then
    if r ≤ cumsum.getD ((low + hi1 - 1) / 2) 0 then
      bsearchGo cumsum r low ((low + hi1 - 1) / 2)
    else
      bsearchGo cumsum r ((low + hi1 - 1) / 2 + 1) hi1
  else low
termination_by hi1 - low
decreasing_by
  · have hm : (low + hi1 - 1) / 2 < hi1 :=
      Nat.div_lt_of_lt_mul (by omega)
    omega
  · have hm : low ≤ (low + hi1 - 1) / 2 :=
      (Nat.le_div_iff_mul_le (by norm_num)).mpr (by omega)
    omega

/-- `sampleRewardPrioritized(batchSize)`: explicit empty-buffer guard,
sampling probabilities proportional to `|reward| + 1`, inverse-CDF
lookup by binary search over the cumulative sums, then a shuffle. -/
def ReplayBuffer.sampleRewardPrioritized (b : ReplayBuffer) (batchSize : ℕ)
    (rand : ℕ → ℚ) : List (Option Transition) :=
  if b.buffer.length = 0 then []
  else
    let eps : ℚ := 1
    let absRewards := b.buffer.map (fun t => |t.reward| + eps)
    let total := absRewards.sum
    let probs := absRewards.map (fun r => r / total)
    let cumsum := cumsumFrom 0 probs
    let batch := (List.range batchSize).map
      (fun k => jsGetI b.buffer ((bsearchGo cumsum (rand k) 0 cumsum.length : ℕ) : ℤ))
    jsShuffle rand batchSize batch

/-- Component of a 2-entry action-value vector selected by an action id
(index `0` = IDLE = first output, index `1` = FLAP = second output). -/
def sel (q : ℚ × ℚ) : ActionId → ℚ
  | .idle => q.1
  | .flap => q.2

/-- One row of the tidy block's target arithmetic:
`targetQ = reward + maxNextQ * gamma * notDone`, where `notDone` is the
`logicalNot` of the done mask cast to `1`/`0`. -/
def computeTarget (maxNextQ reward : ℚ) (done : Bool) : ℚ :=
  reward + maxNextQ * gamma * (if done then 0 else 1)

/-- One row of the training-target matrix built inside `tf.tidy` in
`DQNAgent.train`: the online model's current output row for the
transition's state, with only the taken action's component overwritten
by `reward + gamma * max(targetModel(nextState)) * (1 - done)`.
`predict` abstracts `model.predict` as a function from the network
parameters `P` and an input vector to the 2 outputs. -/
def targetRow {P : Type} (predict : P → List ℚ → ℚ × ℚ) (model targetModel : P)
    (tr : Transition) : ℚ × ℚ :=
  let nq := predict targetModel tr.nextState
  let maxNextQ := max nq.1 nq.2
  let t := computeTarget maxNextQ tr.reward tr.done
  let q := predict model tr.state
  match tr.action with
  | .idle => (t, q.2)
  | .flap => (q.1, t)

/-- The full target matrix: one `targetRow` per sampled transition. -/
def computeTargets {P : Type} (predict : P → List ℚ → ℚ × ℚ) (model targetModel : P)
    (batch : List Transition) : List (ℚ × ℚ) :=
  batch.map (targetRow predict model targetModel)

/-- `decayEpsilon()`: multiply by `EPSILON_DECAY` while above
`EPSILON_MIN`, clamping at `EPSILON_MIN`. -/
def decayEpsilon (eps : ℚ) : ℚ :=
  if EPSILON_MIN < eps then
    let e := eps * EPSILON_DECAY
    if e < EPSILON_MIN then EPSILON_MIN else e
  else eps

/-- The mutable fields of `DQNAgent` that `train()` touches. `P` is the
(abstract) type of one network's parameters. -/
structure AgentState (P : Type) where
  model : P
  targetModel : P
  replayBuffer : ReplayBuffer
  stepCount : ℕ
  trainingInProgress : Bool
  epsilon : ℚ
deriving DecidableEq

/-- Collects a JS array whose elements must all be defined; `none` as
soon as some element is `undefined` (reading a field of it throws). -/
def seqOptions {α : Type} : List (Option α) → Option (List α)
  | [] => some []
  | none :: _ => none
  | some a :: t => (seqOptions t).map (a :: ·)

/-- Success condition of `tf.tensor2d(values, [rows, cols])`: the
flattened value count must equal `rows * cols`, else TF throws. -/
abbrev tensor2dOk (vals : List (List ℚ)) (rows cols : ℕ) : Prop :=
  (vals.map List.length).sum = rows * cols

/-- `tf.tensor2d(values, [rows, cols])` as a fallible constructor:
`none` models the shape-mismatch exception. -/
def tensor2d (vals : List (List ℚ)) (rows cols : ℕ) : Option (List (List ℚ)) :=
  if tensor2dOk vals rows cols then some vals else none

/-- `DQNAgent.train()`. Returns the post-call agent state together with
`true` iff an uncaught exception propagated out of the call.

Control flow follows the source exactly: increment `stepCount` first;
early-return on the throttle, the insufficient-buffer guard and the
`trainingInProgress` guard; set the flag; sample the batch; build the
`[BATCH_SIZE, 7]` input tensors (an `undefined` batch element or a
flattened-length mismatch throws here, BEFORE the `try`, so the flag is
not released); inside the `try`, compute the targets and run `fit`
(`fit` abstracts `model.fit`; `Except.error` models a caught training
error, in which case the parameters and `epsilon` are left as they
were); the `finally` clears the flag; finally the
`stepCount % TARGET_UPDATE_FREQ` check copies the online parameters
into the target network. -/
def train {P : Type} (predict : P → List ℚ → ℚ × ℚ)
    (fit : P → List (List ℚ) → List (ℚ × ℚ) → Except Unit P)
    (rand : ℕ → ℚ) (s0 : AgentState P) : AgentState P × Bool :=
  let s := { s0 with stepCount := s0.stepCount + 1 }
  if s.stepCount % TRAIN_THROTTLE ≠ 0 then (s, false)
  else if s.replayBuffer.size < BATCH_SIZE then (s, false)
  else if s.trainingInProgress then (s, false)
  else
    let s1 := { s with trainingInProgress := true }
    let batchOpt := s1.replayBuffer.sampleLastPrioritizedAndRandom BATCH_SIZE rand
    match seqOptions batchOpt with
    | none => (s1, true)
    | some batch =>
      let states := batch.map Transition.state
      let nextStates := batch.map Transition.nextState
      if tensor2dOk states BATCH_SIZE createModelInputDim
          ∧ tensor2dOk nextStates BATCH_SIZE createModelInputDim then
        let targets := computeTargets predict s1.model s1.targetModel batch
        let s2 := match fit s1.model states targets with
          | .ok m => { s1 with model := m, epsilon := decayEpsilon s1.epsilon }
          | .error _ => s1
        let s3 := { s2 with trainingInProgress := false }
        let s4 := if s3.stepCount % TARGET_UPDATE_FREQ = 0
          then { s3 with targetModel := s3.model } else s3
        (s4, false)
      else (s1, true)

/-- Parsed `flappy_dqn_metadata` record `{epsilon, generation}`. -/
structure DQNMeta where
  epsilon : ℚ
  generation : ℤ
deriving DecidableEq, Repr

/-- `DQNAgent.loadBrain()`. Everything runs inside one `try/catch`:
`modelStore` is `tf.loadLayersModel` (`Except.error` = model missing or
corrupt, thrown and caught); `metaStore` is
`localStorage.getItem('flappy_dqn_metadata')` — when it is `null`,
`JSON.parse(null)` yields the JS value `null` (no exception) and the
`if (metadata)` guard falls through; `parseMeta` returning
`Except.error` models a JSON parse failure (thrown, caught), and
`.ok none` a parsed-but-falsy metadata value. The result is the
returned `{success, generation}` together with the module `epsilon`
after the call (updated only on full success). The function is total:
no exception ever propagates. (The source also installs the loaded
model and re-derives the target network before reading the metadata;
that side effect on the network parameters is outside the returned
result and is not modelled here.) -/
def loadBrain {P σ : Type} (modelStore : Except Unit P) (metaStore : Option σ)
    (parseMeta : σ → Except Unit (Option DQNMeta)) (eps : ℚ) :
    QL.LoadResult × ℚ :=
  match modelStore with
  | .error _ => ({ success := false, generation := 1 }, eps)
  | .ok _ =>
    match metaStore with
    | none => ({ success := false, generation := 1 }, eps)
    | some sdata =>
      match parseMeta sdata with
      | .error _ => ({ success := false, generation := 1 }, eps)
      | .ok none => ({ success := false, generation := 1 }, eps)
      | .ok (some md) =>
          ({ success := true, generation := md.generation }, md.epsilon)

end DQN

namespace Game

/-- The DQN game scene's state vector (`part_001`, `update()`):
`[dx / 1000, dy / 400, velY / 1000, gapHeight / 400]`. -/
def mkState (dx dy velY gapHeight : ℚ) : List ℚ :=
  [dx / 1000, dy / 400, velY / 1000, gapHeight / 400]

end Game

/-! ### Concrete fixtures used by witnesses and counterexamples -/

/-- A transition shaped exactly like the ones `part_001` records:
4-element normalized state vectors. -/
def tr4probe : DQN.Transition :=
  { state := [0, 0, 0, 0], action := .idle, reward := 1
    nextState := [0, 0, 0, 0], done := false }

/-- A transition whose state vectors match the network's declared
7-dimensional input shape. -/
def tr7probe : DQN.Transition :=
  { state := [0, 0, 0, 0, 0, 0, 0], action := .idle, reward := 1
    nextState := [0, 0, 0, 0, 0, 0, 0], done := false }

/-- A deterministic `Math.random` stream that always draws `0`. -/
def rand0 : ℕ → ℚ := fun _ => 0

/-- A `model.predict` oracle over `ℕ`-valued parameters. -/
def predict0 : ℕ → List ℚ → ℚ × ℚ := fun _ _ => (0, 0)

/-- A `model.fit` oracle that succeeds, bumping the parameter counter. -/
def fitConst : ℕ → List (List ℚ) → List (ℚ × ℚ) → Except Unit ℕ :=
  fun m _ _ => .ok (m + 1)

/-- A `model.fit` oracle that raises a (caught) training error. -/
def fitFail : ℕ → List (List ℚ) → List (ℚ × ℚ) → Except Unit ℕ :=
  fun _ _ _ => .error ()

/-- Agent state holding 64 game-shaped (4-dimensional) transitions,
about to pass the throttle (stepCount becomes 2). -/
def s4probe : DQN.AgentState ℕ :=
  { model := 1, targetModel := 0
    replayBuffer := ⟨30000, List.replicate 64 tr4probe⟩
    stepCount := 1, trainingInProgress := false, epsilon := 1 }

/-- Agent state holding 64 network-shaped (7-dimensional) transitions. -/
def s7probe : DQN.AgentState ℕ :=
  { model := 1, targetModel := 0
    replayBuffer := ⟨30000, List.replicate 64 tr7probe⟩
    stepCount := 1, trainingInProgress := false, epsilon := 1 }

/-- Agent state with an empty buffer one step before a
`TARGET_UPDATE_FREQ` boundary, with online and target parameters apart. -/
def sEmptyProbe : DQN.AgentState ℕ :=
  { model := 1, targetModel := 0
    replayBuffer := ⟨30000, []⟩
    stepCount := 499, trainingInProgress := false, epsilon := 1 }

/-- Distinct probe transitions, numbered by reward, for the FIFO test. -/
def trProbe (n : ℕ) : DQN.Transition :=
  { state := [], action := .idle, reward := (n : ℚ), nextState := [], done := false }

/-- `s4probe` with a training step already in flight. -/
def sBusyProbe : DQN.AgentState ℕ :=
  { s4probe with trainingInProgress := true }

/-- `s7probe` one step before a `TARGET_UPDATE_FREQ` boundary. -/
def s7probe500 : DQN.AgentState ℕ :=
  { s7probe with stepCount := 499 }

section QLLemmas

open QL

theorem qlookup_append (t₁ t₂ : QTable) (s : String) :
    qlookup (t₁ ++ t₂) s = ((qlookup t₁ s).or (qlookup t₂ s)) := by
  induction t₁ with
  | nil => simp [qlookup]
  | cons p t ih =>
    obtain ⟨k, e⟩ := p
    by_cases h : k = s <;> simp [qlookup, h, ih]

theorem qlookup_qset_ne (t : QTable) (s k : String) (a : ActionId) (v : ℚ)
    (h : k ≠ s) : qlookup (qset t s a v) k = qlookup t k := by
  induction t with
  | nil => simp [qset, qlookup]
  | cons p t ih =>
    obtain ⟨k', e⟩ := p
    by_cases h' : k' = s
    · subst h'
      simp [qset, qlookup, Ne.symm h, ih]
    · by_cases h'' : k' = k <;> simp [qset, qlookup, h'', h, ih]

theorem qlookup_qset_eq (t : QTable) (s : String) (a : ActionId) (v : ℚ) :
    qlookup (qset t s a v) s = (qlookup t s).map (fun e => e.set a v) := by
  induction t with
  | nil => simp [qset, qlookup]
  | cons p t ih =>
    obtain ⟨k, e⟩ := p
    by_cases h : k = s
    · subst h
      simp [qset, qlookup]
    · simp [qset, qlookup, h, ih]

theorem getQ_table (t : QTable) (s : String) :
    (getQ t s).1 = match qlookup t s with
      | some _ => t
      | none => t ++ [(s, ⟨0, 0⟩)] := by
  unfold getQ
  cases qlookup t s <;> rfl

theorem getQ_entry (t : QTable) (s : String) :
    (getQ t s).2 = (qlookup t s).getD ⟨0, 0⟩ := by
  unfold getQ
  cases qlookup t s <;> rfl

theorem qlookup_getQ_self (t : QTable) (s : String) :
    qlookup (getQ t s).1 s = some ((qlookup t s).getD ⟨0, 0⟩) := by
  rw [getQ_table]
  cases h : qlookup t s with
  | some e => simp [h]
  | none => simp [qlookup_append, h, qlookup]

theorem qlookup_getQ_ne (t : QTable) (s k : String) (h : k ≠ s) :
    qlookup (getQ t s).1 k = qlookup t k := by
  rw [getQ_table]
  cases h' : qlookup t s with
  | some e => simp
  | none => simp [qlookup_append, qlookup, Ne.symm h]

end QLLemmas

section QLUpdateLemmas

open QL

theorem QEntry.get_set_self (e : QEntry) (a : ActionId) (v : ℚ) :
    (e.set a v).get a = v := by
  cases a <;> rfl

theorem QEntry.get_set_ne (e : QEntry) (a b : ActionId) (v : ℚ) (h : b ≠ a) :
    (e.set a v).get b = e.get b := by
  cases a <;> cases b <;> first | rfl | exact absurd rfl h

theorem qlookup_getQ_getD (t : QTable) (s ns : String) :
    ((qlookup (getQ t s).1 ns).getD ⟨0, 0⟩) = (qlookup t ns).getD ⟨0, 0⟩ := by
  by_cases h : ns = s
  · subst h
    rw [qlookup_getQ_self]
    rfl
  · rw [qlookup_getQ_ne _ _ _ h]

theorem qlookup_getQ_getQ_self (t : QTable) (s ns : String) :
    qlookup (getQ (getQ t s).1 ns).1 s = some ((qlookup t s).getD ⟨0, 0⟩) := by
  by_cases h : s = ns
  · subst h
    rw [qlookup_getQ_self, qlookup_getQ_self]
    rfl
  · rw [qlookup_getQ_ne _ _ _ h, qlookup_getQ_self]

theorem updateQ_eq_qset (t : QTable) (s : String) (a : ActionId) (r : ℚ) (ns : String) :
    updateQ t s a r ns
      = qset (getQ (getQ t s).1 ns).1 s a
          (qvalD t s a
            + alpha * (r + gamma * max (qvalD t ns .idle) (qvalD t ns .flap)
                        - qvalD t s a)) := by
  unfold updateQ qvalD
  simp only [getQ_entry, qlookup_getQ_getD]

theorem qlookup_updateQ_self (t : QTable) (s : String) (a : ActionId) (r : ℚ) (ns : String) :
    qlookup (updateQ t s a r ns) s
      = some (((qlookup t s).getD ⟨0, 0⟩).set a
          (qvalD t s a
            + alpha * (r + gamma * max (qvalD t ns .idle) (qvalD t ns .flap)
                        - qvalD t s a))) := by
  rw [updateQ_eq_qset, qlookup_qset_eq, qlookup_getQ_getQ_self]
  rfl

theorem qvalD_updateQ_self (t : QTable) (s : String) (a : ActionId) (r : ℚ) (ns : String) :
    qvalD (updateQ t s a r ns) s a
      = qvalD t s a
        + alpha * (r + gamma * max (qvalD t ns .idle) (qvalD t ns .flap)
                    - qvalD t s a) := by
  unfold qvalD
  rw [qlookup_updateQ_self]
  simp [QEntry.get_set_self, qvalD]

end QLUpdateLemmas

/-- **C1.** `updateQ(state, action, reward, nextState)` sets
`Q[state][action]` to its old value plus
`alpha * (reward + gamma * max(Q[nextState][IDLE], Q[nextState][FLAP]) - old)`,
where both `state` and `nextState` are lazily initialized with both
action entries `0` before reading (so an unseen entry reads as `0`, and
both keys are materialized afterwards); in particular, starting from
`Q[S][A] = 0` with `reward = 10`, `gamma = 1`, `alpha = 0.2` and a
next state of maximal value `0`, the updated `Q[S][A]` is exactly `2`. -/
theorem tabular_update_bellman :
    (∀ (t : QL.QTable) (s : String) (a : ActionId) (r : ℚ) (ns : String),
      QL.qvalD (QL.updateQ t s a r ns) s a
        = QL.qvalD t s a
          + QL.alpha * (r + QL.gamma * max (QL.qvalD t ns .idle) (QL.qvalD t ns .flap)
                          - QL.qvalD t s a)
      ∧ (QL.qlookup (QL.updateQ t s a r ns) s).isSome = true
      ∧ (QL.qlookup (QL.updateQ t s a r ns) ns).isSome = true)
    ∧ QL.qvalD (QL.updateQ [] "S" .flap 10 "T") "S" .flap = 2 := by
  constructor
  · intro t s a r ns
    refine ⟨qvalD_updateQ_self t s a r ns, ?_, ?_⟩
    · rw [qlookup_updateQ_self]
      rfl
    · by_cases h : ns = s
      · subst h
        rw [qlookup_updateQ_self]
        rfl
      · rw [updateQ_eq_qset, qlookup_qset_ne _ _ _ _ _ h,
            qlookup_getQ_self]
        rfl
  · rw [qvalD_updateQ_self]
    norm_num [QL.qvalD, QL.qlookup, QL.QEntry.get, QL.alpha, QL.gamma]

/-- **C10.** `updateQ(state, action, reward, nextState)` leaves every
Q-table cell other than `Q[state][action]` at its prior value: any key
other than `state` keeps its exact entry (with `nextState`, if
previously unseen, newly materialized as `⟨0, 0⟩`, and every other
unseen key still absent), and at `state` the untaken action's value is
unchanged (reading `0` exactly when `state` was previously unseen). -/
theorem tabular_update_frame :
    ∀ (t : QL.QTable) (s : String) (a : ActionId) (r : ℚ) (ns : String),
      (∀ k : String, k ≠ s →
        QL.qlookup (QL.updateQ t s a r ns) k
          = match QL.qlookup t k with
            | some e => some e
            | none => if k = ns then some ⟨0, 0⟩ else none)
      ∧ (∀ b : ActionId, b ≠ a →
        ((QL.qlookup (QL.updateQ t s a r ns) s).getD ⟨0, 0⟩).get b
          = QL.qvalD t s b) := by
  intro t s a r ns
  constructor
  · intro k hk
    rw [updateQ_eq_qset, qlookup_qset_ne _ _ _ _ _ hk]
    by_cases h : k = ns
    · subst h
      rw [qlookup_getQ_self, qlookup_getQ_ne _ _ _ hk]
      cases h' : QL.qlookup t k <;> simp [h']
    · rw [qlookup_getQ_ne _ _ _ h, qlookup_getQ_ne _ _ _ hk]
      cases h' : QL.qlookup t k <;> simp [h', h]
  · intro b hb
    rw [qlookup_updateQ_self]
    simpa [QL.qvalD] using QEntry.get_set_ne _ _ _ _ hb

/-- Witness for `tabular_update_frame` at a concrete table: updating
`("a", ⟨5, 7⟩)` at key `"a"`, action `IDLE`, with next state `"b"`,
leaves the unrelated key `"c"` absent and keeps `Q["a"][FLAP] = 7`. -/
theorem tabular_update_frame_witness :
    QL.qlookup (QL.updateQ [("a", ⟨5, 7⟩)] "a" .idle 3 "b") "c" = none
    ∧ ((QL.qlookup (QL.updateQ [("a", ⟨5, 7⟩)] "a" .idle 3 "b") "a").getD ⟨0, 0⟩).get .flap = 7 := by
  constructor
  · have h := (tabular_update_frame [("a", ⟨5, 7⟩)] "a" .idle 3 "b").1 "c" (by decide)
    rw [h]
    simp [QL.qlookup]
  · have h := (tabular_update_frame [("a", ⟨5, 7⟩)] "a" .idle 3 "b").2 .flap (by decide)
    rw [h]
    simp [QL.qvalD, QL.qlookup, QL.QEntry.get]

section DQNListLemmas

open DQN

theorem jsGetI_nil {α : Type} (i : ℤ) : jsGetI ([] : List α) i = none := by
  unfold jsGetI
  split <;> simp

theorem jsGetI_mem {α : Type} {l : List α} {i : ℤ} {x : α}
    (h : jsGetI l i = some x) : x ∈ l := by
  unfold jsGetI at h
  split at h
  · exact List.get?_mem h
  · cases h

theorem jsGetI_isSome_of_lt {α : Type} (l : List α) (i : ℤ) (h0 : 0 ≤ i)
    (hl : i.toNat < l.length) : ∃ x ∈ l, jsGetI l i = some x := by
  refine ⟨l.get ⟨i.toNat, hl⟩, List.get_mem .., ?_⟩
  simp [jsGetI, if_pos h0, List.get?_eq_get hl]

theorem listSwap_length {α : Type} (l : List α) (i j : ℕ) :
    (listSwap l i j).length = l.length := by
  unfold listSwap
  split <;> simp

theorem listSwap_mem {α : Type} {l : List α} {i j : ℕ} {x : α}
    (h : x ∈ listSwap l i j) : x ∈ l := by
  unfold listSwap at h
  split at h
  next a b ha hb =>
    rcases List.mem_or_eq_of_mem_set h with h' | h'
    · rcases List.mem_or_eq_of_mem_set h' with h'' | h''
      · exact h''
      · exact h'' ▸ List.get?_mem hb
    · exact h' ▸ List.get?_mem ha
  next => exact h

theorem jsShuffleGo_length {α : Type} (rand : ℕ → ℚ) :
    ∀ (n off : ℕ) (l : List α), (jsShuffleGo rand off l n).length = l.length := by
  intro n
  induction n with
  | zero => intro off l; rfl
  | succ m ih =>
    intro off l
    simp only [jsShuffleGo]
    rw [ih, listSwap_length]

theorem jsShuffleGo_mem {α : Type} (rand : ℕ → ℚ) :
    ∀ (n off : ℕ) (l : List α) (x : α), x ∈ jsShuffleGo rand off l n → x ∈ l := by
  intro n
  induction n with
  | zero => intro off l x h; exact h
  | succ m ih =>
    intro off l x h
    simp only [jsShuffleGo] at h
    exact listSwap_mem (ih _ _ _ h)

theorem jsShuffle_length {α : Type} (rand : ℕ → ℚ) (off : ℕ) (l : List α) :
    (jsShuffle rand off l).length = l.length :=
  jsShuffleGo_length rand _ off l

theorem jsShuffle_mem {α : Type} (rand : ℕ → ℚ) (off : ℕ) (l : List α) (x : α)
    (h : x ∈ jsShuffle rand off l) : x ∈ l :=
  jsShuffleGo_mem rand _ off l x h

theorem seqOptions_of_isSome {α : Type} :
    ∀ (l : List (Option α)), (∀ x ∈ l, x.isSome) →
      ∃ l', seqOptions l = some l' ∧ l'.length = l.length ∧ ∀ a ∈ l', some a ∈ l := by
  intro l
  induction l with
  | nil => intro _; exact ⟨[], rfl, rfl, by simp⟩
  | cons x t ih =>
    intro h
    cases x with
    | none => simpa using h none (by simp)
    | some a =>
      obtain ⟨l', h1, h2, h3⟩ := ih (fun y hy => h y (by simp [hy]))
      refine ⟨a :: l', by simp [seqOptions, h1], by simp [h2], ?_⟩
      intro b hb
      rcases List.mem_cons.mp hb with rfl | hb
      · simp
      · simp [h3 b hb]

theorem set_get?_self {α : Type} :
    ∀ (l : List α) (i : ℕ) (a : α), l.get? i = some a → l.set i a = l := by
  intro l
  induction l with
  | nil => intro i a h; cases h
  | cons x t ih =>
    intro i a h
    cases i with
    | zero => simpa using (by simpa using h : x = a).symm ▸ rfl
    | succ m => simpa using ih m a (by simpa using h)

theorem sum_map_eq_of_const {α : Type} (d : ℕ) :
    ∀ (l : List α) (f : α → ℕ), (∀ a ∈ l, f a = d) → (l.map f).sum = l.length * d := by
  intro l
  induction l with
  | nil => simp
  | cons x t ih =>
    intro f h
    simp only [List.map_cons, List.sum_cons, List.length_cons]
    rw [h x (by simp), ih f (fun a ha => h a (by simp [ha]))]
    ring

end DQNListLemmas

section DQNSamplerLemmas

open DQN

theorem sampleRandomBasic_empty (C bs : ℕ) (rand : ℕ → ℚ) :
    (ReplayBuffer.mk C []).sampleRandomBasic bs rand = List.replicate bs none := by
  unfold ReplayBuffer.sampleRandomBasic
  have h : ∀ i : ℕ, jsGetI ([] : List Transition) ⌊rand i * (((ReplayBuffer.mk C []).buffer.length : ℕ) : ℚ)⌋ = none :=
    fun i => jsGetI_nil _
  simp only [h]
  simp [List.map_const']

theorem sampleMix_empty (C bs : ℕ) (rand : ℕ → ℚ) :
    (ReplayBuffer.mk C []).sampleLastPrioritizedAndRandom bs rand = [] := by
  unfold ReplayBuffer.sampleLastPrioritizedAndRandom
  simp [jsShuffle, jsShuffleGo]

theorem sampleReward_empty (C bs : ℕ) (rand : ℕ → ℚ) :
    (ReplayBuffer.mk C []).sampleRewardPrioritized bs rand = [] := by
  unfold ReplayBuffer.sampleRewardPrioritized
  simp

theorem sampleRandomBasic_mem (b : ReplayBuffer) (bs : ℕ) (rand : ℕ → ℚ)
    (hlen : 0 < b.buffer.length) (hrand : ∀ k, 0 ≤ rand k ∧ rand k < 1) :
    ∀ x ∈ b.sampleRandomBasic bs rand, ∃ t ∈ b.buffer, x = some t := by
  intro x hx
  unfold ReplayBuffer.sampleRandomBasic at hx
  simp only [List.mem_map, List.mem_range] at hx
  obtain ⟨k, _, hk⟩ := hx
  have hpos : (0 : ℚ) < (b.buffer.length : ℚ) := by exact_mod_cast hlen
  have h0 : (0 : ℤ) ≤ ⌊rand k * (b.buffer.length : ℚ)⌋ :=
    Int.floor_nonneg.mpr (mul_nonneg (hrand k).1 (le_of_lt hpos))
  have hlt : (⌊rand k * (b.buffer.length : ℚ)⌋).toNat < b.buffer.length := by
    have hfl : ⌊rand k * (b.buffer.length : ℚ)⌋ < (b.buffer.length : ℤ) := by
      apply Int.floor_lt.mpr
      push_cast
      exact mul_lt_of_lt_one_left hpos (hrand k).2
    omega
  obtain ⟨t, ht, heq⟩ := jsGetI_isSome_of_lt b.buffer _ h0 hlt
  exact ⟨t, ht, by rw [← hk, heq]⟩

theorem sampleMix_mem (b : ReplayBuffer) (bs : ℕ) (rand : ℕ → ℚ)
    (hrand : ∀ k, 0 ≤ rand k ∧ rand k < 1) :
    ∀ x ∈ b.sampleLastPrioritizedAndRandom bs rand, ∃ t ∈ b.buffer, x = some t := by
  intro x hx
  simp only [ReplayBuffer.sampleLastPrioritizedAndRandom] at hx
  have hx' := jsShuffle_mem _ _ _ _ hx
  rw [List.mem_append] at hx'
  rcases hx' with h1 | h2
  · simp only [List.mem_map, List.mem_range] at h1
    obtain ⟨k, hk, heq⟩ := h1
    have hklen : k < b.buffer.length := by omega
    have h0 : (0 : ℤ) ≤ (b.buffer.length : ℤ) - 1 - (k : ℤ) := by omega
    have hlt : (((b.buffer.length : ℤ) - 1 - (k : ℤ)).toNat) < b.buffer.length := by omega
    obtain ⟨t, ht, heq'⟩ := jsGetI_isSome_of_lt b.buffer _ h0 hlt
    exact ⟨t, ht, by rw [← heq, heq']⟩
  · by_cases hc : 0 < bs - bs / 4 ∧ 0 < b.buffer.length
    · rw [if_pos hc] at h2
      simp only [List.mem_map, List.mem_range] at h2
      obtain ⟨k, _, heq⟩ := h2
      have hpos : (0 : ℚ) < (b.buffer.length : ℚ) := by exact_mod_cast hc.2
      have h0 : (0 : ℤ) ≤ ⌊rand k * (b.buffer.length : ℚ)⌋ :=
        Int.floor_nonneg.mpr (mul_nonneg (hrand k).1 (le_of_lt hpos))
      have hlt : (⌊rand k * (b.buffer.length : ℚ)⌋).toNat < b.buffer.length := by
        have hfl : ⌊rand k * (b.buffer.length : ℚ)⌋ < (b.buffer.length : ℤ) := by
          apply Int.floor_lt.mpr
          push_cast
          exact mul_lt_of_lt_one_left hpos (hrand k).2
        omega
      obtain ⟨t, ht, heq'⟩ := jsGetI_isSome_of_lt b.buffer _ h0 hlt
      exact ⟨t, ht, by rw [← heq, heq']⟩
    · rw [if_neg hc] at h2
      cases h2

theorem sampleMix_length (b : ReplayBuffer) (bs : ℕ) (rand : ℕ → ℚ) :
    (b.sampleLastPrioritizedAndRandom bs rand).length
      = (b.buffer.length - (b.buffer.length - bs / 4))
        + (if 0 < bs - bs / 4 ∧ 0 < b.buffer.length then bs - bs / 4 else 0) := by
  simp only [ReplayBuffer.sampleLastPrioritizedAndRandom]
  rw [jsShuffle_length, List.length_append, List.length_map, List.length_range]
  congr 1
  split
  · rw [List.length_map, List.length_range]
  · rfl

end DQNSamplerLemmas

section CumsumBsearchLemmas

open DQN

theorem cumsumFrom_length (acc : ℚ) (l : List ℚ) :
    (cumsumFrom acc l).length = l.length := by
  induction l generalizing acc with
  | nil => rfl
  | cons p ps ih => simp [cumsumFrom, ih]

theorem cumsumFrom_getD (l : List ℚ) :
    ∀ (acc : ℚ) (k : ℕ), k < l.length →
      (cumsumFrom acc l).getD k 0 = acc + (l.take (k + 1)).sum := by
  induction l with
  | nil => intro acc k hk; simp at hk
  | cons p ps ih =>
    intro acc k hk
    cases k with
    | zero => simp [cumsumFrom]
    | succ m =>
      simp only [cumsumFrom, List.getD_cons_succ]
      rw [ih (acc + p) m (by simpa using hk)]
      simp [add_assoc]

theorem cumsumFrom_mono (l : List ℚ) (acc : ℚ) (h : ∀ p ∈ l, 0 ≤ p)
    (j k : ℕ) (hj : j ≤ k) (hk : k < l.length) :
    (cumsumFrom acc l).getD j 0 ≤ (cumsumFrom acc l).getD k 0 := by
  rw [cumsumFrom_getD l acc j (lt_of_le_of_lt hj hk), cumsumFrom_getD l acc k hk]
  have hsplit : (l.take (j + 1)).sum + ((l.take (k + 1)).drop (j + 1)).sum
      = (l.take (k + 1)).sum := by
    conv_rhs => rw [← List.take_append_drop (j + 1) (l.take (k + 1))]
    rw [List.sum_append, List.take_take, min_eq_left (by omega)]
  have hnn : 0 ≤ ((l.take (k + 1)).drop (j + 1)).sum :=
    List.sum_nonneg fun p hp =>
      h p (List.take_subset _ _ (List.drop_subset _ _ hp))
  linarith

theorem cumsumFrom_last (l : List ℚ) (acc : ℚ) (h : l ≠ []) :
    (cumsumFrom acc l).getD (l.length - 1) 0 = acc + l.sum := by
  have hl : 0 < l.length := List.length_pos.mpr h
  rw [cumsumFrom_getD l acc (l.length - 1) (by omega)]
  congr 1
  rw [show l.length - 1 + 1 = l.length by omega, List.take_length]

theorem sum_map_div (l : List ℚ) (c : ℚ) :
    (l.map (fun x => x / c)).sum = l.sum / c := by
  induction l with
  | nil => simp
  | cons x t ih => simp [ih, add_div]

theorem bsearchGo_spec (cumsum : List ℚ) (r : ℚ)
    (hmono : ∀ j k, j ≤ k → k < cumsum.length →
      cumsum.getD j 0 ≤ cumsum.getD k 0) :
    ∀ (fuel low hi1 : ℕ), hi1 - low ≤ fuel → low ≤ hi1 → hi1 ≤ cumsum.length →
      (∀ j, j < low → cumsum.getD j 0 < r) →
      bsearchGo cumsum r low hi1 ≤ hi1
      ∧ (∀ j, j < bsearchGo cumsum r low hi1 → cumsum.getD j 0 < r) := by
  intro fuel
  induction fuel with
  | zero =>
    intro low hi1 hf hlh _ hinv
    have hnl : ¬ low < hi1 := by omega
    rw [bsearchGo, dif_neg hnl]
    exact ⟨hlh, hinv⟩
  | succ m ih =>
    intro low hi1 hf hlh hhc hinv
    by_cases hlt : low < hi1
    · rw [bsearchGo, dif_pos hlt]
      have hmlow : low ≤ (low + hi1 - 1) / 2 :=
        (Nat.le_div_iff_mul_le (by norm_num)).mpr (by omega)
      have hmhi : (low + hi1 - 1) / 2 < hi1 := Nat.div_lt_of_lt_mul (by omega)
      by_cases hc : r ≤ cumsum.getD ((low + hi1 - 1) / 2) 0
      · rw [if_pos hc]
        have hrec := ih low ((low + hi1 - 1) / 2) (by omega) (by omega) (by omega) hinv
        exact ⟨le_trans hrec.1 (by omega), hrec.2⟩
      · rw [if_neg hc]
        have hinv' : ∀ j, j < (low + hi1 - 1) / 2 + 1 → cumsum.getD j 0 < r := by
          intro j hj
          rcases lt_or_ge j low with h' | h'
          · exact hinv j h'
          · exact lt_of_le_of_lt
              (hmono j ((low + hi1 - 1) / 2) (by omega) (by omega))
              (not_le.mp hc)
        exact ih ((low + hi1 - 1) / 2 + 1) hi1 (by omega) (by omega) hhc hinv'
    · rw [bsearchGo, dif_neg hlt]
      exact ⟨hlh, hinv⟩

theorem sampleReward_mem (b : ReplayBuffer) (bs : ℕ) (rand : ℕ → ℚ)
    (hrand : ∀ k, 0 ≤ rand k ∧ rand k < 1) :
    ∀ x ∈ b.sampleRewardPrioritized bs rand, ∃ t ∈ b.buffer, x = some t := by
  intro x hx
  simp only [ReplayBuffer.sampleRewardPrioritized] at hx
  by_cases hlen : b.buffer.length = 0
  · rw [if_pos hlen] at hx
    cases hx
  · rw [if_neg hlen] at hx
    have hx' := jsShuffle_mem _ _ _ _ hx
    simp only [List.mem_map, List.mem_range] at hx'
    obtain ⟨k, _, heq⟩ := hx'
    set absRewards := b.buffer.map (fun t => |t.reward| + 1) with habs
    set total := absRewards.sum with htotal
    set probs := absRewards.map (fun r => r / total) with hprobs
    set cumsum := cumsumFrom 0 probs with hcs
    have habs_pos : ∀ p ∈ absRewards, (1:ℚ) ≤ p := by
      intro p hp
      rw [habs] at hp
      simp only [List.mem_map] at hp
      obtain ⟨t, _, rfl⟩ := hp
      have := abs_nonneg t.reward
      linarith
    have habs_len : absRewards.length = b.buffer.length := by
      rw [habs, List.length_map]
    have habs_ne : absRewards ≠ [] := by
      intro h
      rw [h] at habs_len
      simp at habs_len
      omega
    have htotal_pos : 0 < total := by
      rw [htotal]
      apply List.sum_pos
      · intro p hp
        linarith [habs_pos p hp]
      · exact habs_ne
    have hprobs_nonneg : ∀ p ∈ probs, 0 ≤ p := by
      intro p hp
      rw [hprobs] at hp
      simp only [List.mem_map] at hp
      obtain ⟨q, hq, rfl⟩ := hp
      exact div_nonneg (by linarith [habs_pos q hq]) (le_of_lt htotal_pos)
    have hprobs_len : probs.length = b.buffer.length := by
      rw [hprobs, List.length_map, habs_len]
    have hcs_len : cumsum.length = b.buffer.length := by
      rw [hcs, cumsumFrom_length, hprobs_len]
    have hlast : cumsum.getD (b.buffer.length - 1) 0 = 1 := by
      rw [hcs, ← hprobs_len, cumsumFrom_last probs 0 (by
        intro h
        rw [h] at hprobs_len
        simp at hprobs_len
        omega)]
      rw [hprobs, sum_map_div, ← htotal, zero_add]
      exact div_self (ne_of_gt htotal_pos)
    have hmono : ∀ j k, j ≤ k → k < cumsum.length →
        cumsum.getD j 0 ≤ cumsum.getD k 0 := by
      intro j k hj hk
      rw [hcs]
      exact cumsumFrom_mono probs 0 hprobs_nonneg j k hj (by omega)
    have hspec := bsearchGo_spec cumsum (rand k) hmono
      cumsum.length 0 cumsum.length (by omega) (by omega) (by omega)
      (fun j hj => absurd hj (Nat.not_lt_zero j))
    set idx := bsearchGo cumsum (rand k) 0 cumsum.length with hidx
    have hidx_lt : idx < b.buffer.length := by
      rcases lt_or_eq_of_le hspec.1 with h' | h'
      · omega
      · exfalso
        have := hspec.2 (b.buffer.length - 1) (by omega)
        rw [hlast] at this
        linarith [(hrand k).2]
    obtain ⟨t, ht, heq'⟩ := jsGetI_isSome_of_lt b.buffer (idx : ℤ)
      (by omega) (by omega)
    exact ⟨t, ht, by rw [← heq, heq']⟩

end CumsumBsearchLemmas

section TrainLemmas

open DQN

theorem train_overlap_noop {P : Type} (predict : P → List ℚ → ℚ × ℚ)
    (fit : P → List (List ℚ) → List (ℚ × ℚ) → Except Unit P)
    (rand : ℕ → ℚ) (s0 : AgentState P) (hflag : s0.trainingInProgress = true) :
    train predict fit rand s0 = ({ s0 with stepCount := s0.stepCount + 1 }, false) := by
  simp only [DQN.train]
  by_cases h1 : (s0.stepCount + 1) % TRAIN_THROTTLE ≠ 0
  · simp [h1]
  · simp [h1, ReplayBuffer.size, hflag]

theorem train_flag_eq_thrown {P : Type} (predict : P → List ℚ → ℚ × ℚ)
    (fit : P → List (List ℚ) → List (ℚ × ℚ) → Except Unit P)
    (rand : ℕ → ℚ) (s0 : AgentState P) (hflag : s0.trainingInProgress = false) :
    (train predict fit rand s0).1.trainingInProgress = (train predict fit rand s0).2 := by
  simp only [DQN.train]
  split
  · simpa using hflag
  · split
    · simpa using hflag
    · split
      · simpa using hflag
      · split
        · rfl
        · split
          · split <;> rfl
          · rfl

theorem train_batch_of_guards {P : Type} (rand : ℕ → ℚ) (s0 : AgentState P)
    (hrand : ∀ k, 0 ≤ rand k ∧ rand k < 1)
    (h2 : ¬ s0.replayBuffer.size < BATCH_SIZE) :
    ∃ l, seqOptions (s0.replayBuffer.sampleLastPrioritizedAndRandom BATCH_SIZE rand)
        = some l
      ∧ l.length = BATCH_SIZE
      ∧ ∀ a ∈ l, a ∈ s0.replayBuffer.buffer := by
  have hmem := sampleMix_mem s0.replayBuffer BATCH_SIZE rand hrand
  have hall : ∀ x ∈ s0.replayBuffer.sampleLastPrioritizedAndRandom BATCH_SIZE rand,
      x.isSome := by
    intro x hx
    obtain ⟨t, _, rfl⟩ := hmem x hx
    rfl
  obtain ⟨l, hseq, hlen, hsub⟩ := seqOptions_of_isSome _ hall
  have hsz : BATCH_SIZE ≤ s0.replayBuffer.buffer.length := not_lt.mp h2
  refine ⟨l, hseq, ?_, ?_⟩
  · rw [hlen, sampleMix_length]
    rw [if_pos ⟨by simp [BATCH_SIZE], by simp only [BATCH_SIZE] at hsz; omega⟩]
    simp only [BATCH_SIZE] at hsz ⊢
    omega
  · intro a ha
    obtain ⟨t, ht, heq⟩ := hmem (some a) (hsub a ha)
    obtain rfl : a = t := by injection heq
    exact ht

theorem train_unfold {P : Type} (predict : P → List ℚ → ℚ × ℚ)
    (fit : P → List (List ℚ) → List (ℚ × ℚ) → Except Unit P)
    (rand : ℕ → ℚ) (s0 : AgentState P) :
    train predict fit rand s0
      = if (s0.stepCount + 1) % TRAIN_THROTTLE ≠ 0 then
          ({ s0 with stepCount := s0.stepCount + 1 }, false)
        else if s0.replayBuffer.size < BATCH_SIZE then
          ({ s0 with stepCount := s0.stepCount + 1 }, false)
        else if s0.trainingInProgress then
          ({ s0 with stepCount := s0.stepCount + 1 }, false)
        else
          match seqOptions (s0.replayBuffer.sampleLastPrioritizedAndRandom BATCH_SIZE rand) with
          | none =>
            ({ s0 with stepCount := s0.stepCount + 1, trainingInProgress := true }, true)
          | some batch =>
            if tensor2dOk (batch.map Transition.state) BATCH_SIZE createModelInputDim
                ∧ tensor2dOk (batch.map Transition.nextState) BATCH_SIZE createModelInputDim then
              let s2 := match fit s0.model (batch.map Transition.state)
                  (computeTargets predict s0.model s0.targetModel batch) with
                | .ok m =>
                    { s0 with
                      stepCount := s0.stepCount + 1
                      trainingInProgress := true
                      model := m
                      epsilon := decayEpsilon s0.epsilon }
                | .error _ =>
                    { s0 with
                      stepCount := s0.stepCount + 1
                      trainingInProgress := true }
              let s3 := { s2 with trainingInProgress := false }
              ((if s3.stepCount % TARGET_UPDATE_FREQ = 0
                then { s3 with targetModel := s3.model } else s3), false)
            else ({ s0 with stepCount := s0.stepCount + 1, trainingInProgress := true }, true) := by
  rfl

theorem train_throws_of_dim {P : Type} (predict : P → List ℚ → ℚ × ℚ)
    (fit : P → List (List ℚ) → List (ℚ × ℚ) → Except Unit P)
    (rand : ℕ → ℚ) (s0 : AgentState P) (d : ℕ)
    (hflag : s0.trainingInProgress = false)
    (h1 : (s0.stepCount + 1) % TRAIN_THROTTLE = 0)
    (h2 : ¬ s0.replayBuffer.size < BATCH_SIZE)
    (hrand : ∀ k, 0 ≤ rand k ∧ rand k < 1)
    (hdim : ∀ t ∈ s0.replayBuffer.buffer, t.state.length = d)
    (hd : ¬ BATCH_SIZE * d = BATCH_SIZE * createModelInputDim) :
    train predict fit rand s0
      = ({ s0 with stepCount := s0.stepCount + 1, trainingInProgress := true }, true) := by
  obtain ⟨l, hseq, hlen, hsub⟩ := train_batch_of_guards rand s0 hrand h2
  have hstates : ((l.map Transition.state).map List.length).sum = l.length * d := by
    rw [List.map_map]
    exact sum_map_eq_of_const d l (List.length ∘ Transition.state)
      (fun a ha => hdim a (hsub a ha))
  have hnot : ¬ (tensor2dOk (l.map Transition.state) BATCH_SIZE createModelInputDim
      ∧ tensor2dOk (l.map Transition.nextState) BATCH_SIZE createModelInputDim) := by
    intro hcontra
    have hx := hcontra.1
    rw [tensor2dOk, hstates, hlen] at hx
    exact hd hx
  rw [train_unfold,
    if_neg (show ¬ ((s0.stepCount + 1) % TRAIN_THROTTLE ≠ 0) from by simpa using h1),
    if_neg h2, if_neg (show ¬ (s0.trainingInProgress = true) from by simp [hflag])]
  simp only [hseq]
  rw [if_neg hnot]

theorem train_completes_of_dim7 {P : Type} (predict : P → List ℚ → ℚ × ℚ)
    (fit : P → List (List ℚ) → List (ℚ × ℚ) → Except Unit P)
    (rand : ℕ → ℚ) (s0 : AgentState P)
    (hflag : s0.trainingInProgress = false)
    (h1 : (s0.stepCount + 1) % TRAIN_THROTTLE = 0)
    (h2 : ¬ s0.replayBuffer.size < BATCH_SIZE)
    (hrand : ∀ k, 0 ≤ rand k ∧ rand k < 1)
    (hdim : ∀ t ∈ s0.replayBuffer.buffer,
      t.state.length = createModelInputDim
      ∧ t.nextState.length = createModelInputDim) :
    (train predict fit rand s0).2 = false := by
  obtain ⟨l, hseq, hlen, hsub⟩ := train_batch_of_guards rand s0 hrand h2
  have hok : tensor2dOk (l.map Transition.state) BATCH_SIZE createModelInputDim
      ∧ tensor2dOk (l.map Transition.nextState) BATCH_SIZE createModelInputDim := by
    constructor
    · rw [tensor2dOk, List.map_map,
        sum_map_eq_of_const createModelInputDim l (List.length ∘ Transition.state)
          (fun a ha => (hdim a (hsub a ha)).1), hlen]
    · rw [tensor2dOk, List.map_map,
        sum_map_eq_of_const createModelInputDim l (List.length ∘ Transition.nextState)
          (fun a ha => (hdim a (hsub a ha)).2), hlen]
  rw [train_unfold,
    if_neg (show ¬ ((s0.stepCount + 1) % TRAIN_THROTTLE ≠ 0) from by simpa using h1),
    if_neg h2, if_neg (show ¬ (s0.trainingInProgress = true) from by simp [hflag])]
  simp only [hseq]
  rw [if_pos hok]

theorem train_syncs_target {P : Type} (predict : P → List ℚ → ℚ × ℚ)
    (fit : P → List (List ℚ) → List (ℚ × ℚ) → Except Unit P)
    (rand : ℕ → ℚ) (s0 : AgentState P)
    (hflag : s0.trainingInProgress = false)
    (h500 : (s0.stepCount + 1) % TARGET_UPDATE_FREQ = 0)
    (h2 : ¬ s0.replayBuffer.size < BATCH_SIZE)
    (hnothrow : (train predict fit rand s0).2 = false) :
    (train predict fit rand s0).1.targetModel = (train predict fit rand s0).1.model := by
  have h1 : (s0.stepCount + 1) % TRAIN_THROTTLE = 0 := by
    simp only [TARGET_UPDATE_FREQ] at h500
    simp only [TRAIN_THROTTLE]
    omega
  rw [train_unfold,
    if_neg (show ¬ ((s0.stepCount + 1) % TRAIN_THROTTLE ≠ 0) from by simpa using h1),
    if_neg h2, if_neg (show ¬ (s0.trainingInProgress = true) from by simp [hflag])] at hnothrow ⊢
  rcases hseq : seqOptions (s0.replayBuffer.sampleLastPrioritizedAndRandom BATCH_SIZE rand)
    with _ | l
  · simp only [hseq] at hnothrow
    exact Bool.noConfusion hnothrow
  · simp only [hseq] at hnothrow ⊢
    by_cases hok : tensor2dOk (l.map Transition.state) BATCH_SIZE createModelInputDim
        ∧ tensor2dOk (l.map Transition.nextState) BATCH_SIZE createModelInputDim
    · rw [if_pos hok]
      rcases hfit : fit s0.model (l.map Transition.state)
          (computeTargets predict s0.model s0.targetModel l) with e | m
      · simp only [hfit]
        rw [if_pos (show ({ s0 with
            stepCount := s0.stepCount + 1
            trainingInProgress := true } : AgentState P).stepCount % TARGET_UPDATE_FREQ = 0
          from h500)]
      · simp only [hfit]
        rw [if_pos (show ({ s0 with
            stepCount := s0.stepCount + 1
            trainingInProgress := true
            model := m
            epsilon := decayEpsilon s0.epsilon } : AgentState P).stepCount
              % TARGET_UPDATE_FREQ = 0
          from h500)]
    · rw [if_neg hok] at hnothrow
      simp at hnothrow

end TrainLemmas

section C2Lemmas

open DQN

theorem targetRow_done_sel {P : Type} (predict : P → List ℚ → ℚ × ℚ)
    (model targetModel : P) (tr : Transition) (h : tr.done = true) :
    sel (targetRow predict model targetModel tr) tr.action = tr.reward := by
  cases ha : tr.action <;>
    simp [targetRow, sel, ha, computeTarget, h]

theorem targetRow_done_nextState {P : Type} (predict : P → List ℚ → ℚ × ℚ)
    (model targetModel : P) (tr : Transition) (h : tr.done = true) (ns : List ℚ) :
    targetRow predict model targetModel { tr with nextState := ns }
      = targetRow predict model targetModel tr := by
  cases ha : tr.action <;>
    simp [targetRow, computeTarget, h, ha]

end C2Lemmas

/-- **C2.** For every batch entry with `done = true`, the training
target computed by `DQNAgent.train` for the taken action is exactly the
entry's `reward`: the `(1 - done)` mask zeroes the bootstrap term
`gamma * max(targetModel(nextState))`, so replacing that entry's
`nextState` by anything leaves the computed target matrix unchanged. -/
theorem dqn_terminal_target_no_bootstrap :
    ∀ {P : Type} (predict : P → List ℚ → ℚ × ℚ) (model targetModel : P)
      (batch : List DQN.Transition) (i : ℕ) (tr : DQN.Transition) (ns : List ℚ),
      batch.get? i = some tr → tr.done = true →
      ((DQN.computeTargets predict model targetModel batch).get? i).map
          (fun row => DQN.sel row tr.action) = some tr.reward
      ∧ DQN.computeTargets predict model targetModel
            (batch.set i { tr with nextState := ns })
          = DQN.computeTargets predict model targetModel batch := by
  intro P predict model targetModel batch i tr ns hget hdone
  constructor
  · rw [DQN.computeTargets, List.get?_map, hget]
    simp only [Option.map_some']
    exact congrArg some (targetRow_done_sel predict model targetModel tr hdone)
  · rw [DQN.computeTargets, DQN.computeTargets, List.map_set,
      targetRow_done_nextState predict model targetModel tr hdone ns]
    apply set_get?_self
    rw [List.get?_map, hget]
    rfl

/-- Witness for `dqn_terminal_target_no_bootstrap`: a terminal
transition with reward `5` in a singleton batch yields target `5` for
its taken action, however the next state is rewritten. -/
theorem dqn_terminal_target_no_bootstrap_witness :
    ((DQN.computeTargets predict0 0 0
        [⟨[1], .flap, 5, [2], true⟩]).get? 0).map
          (fun row => DQN.sel row ActionId.flap) = some 5
    ∧ DQN.computeTargets predict0 0 0
          [({ (⟨[1], .flap, 5, [2], true⟩ : DQN.Transition) with nextState := [9] })]
        = DQN.computeTargets predict0 0 0 [⟨[1], .flap, 5, [2], true⟩] := by
  have h := dqn_terminal_target_no_bootstrap predict0 0 0
    [⟨[1], .flap, 5, [2], true⟩] 0 ⟨[1], .flap, 5, [2], true⟩ [9] rfl rfl
  exact ⟨h.1, h.2⟩

section C3Lemmas

open DQN

theorem buffer_add_le (b : ReplayBuffer) (t : Transition) (hC : 0 < b.maxSize)
    (h : b.buffer.length ≤ b.maxSize) :
    (b.add t).buffer.length ≤ b.maxSize := by
  unfold ReplayBuffer.add
  by_cases hge : b.maxSize ≤ b.buffer.length
  · simp only [if_pos hge, List.length_append, List.length_tail, List.length_cons]
    simp
    omega
  · simp only [if_neg hge, List.length_append]
    simp
    omega

theorem addAll_inv : ∀ (ts : List Transition) (b : ReplayBuffer), 0 < b.maxSize →
    b.buffer.length ≤ b.maxSize →
    (ts.foldl ReplayBuffer.add b).maxSize = b.maxSize
    ∧ (ts.foldl ReplayBuffer.add b).buffer.length ≤ b.maxSize := by
  intro ts
  induction ts with
  | nil => intro b h0 hle; exact ⟨rfl, hle⟩
  | cons t ts ih =>
    intro b h0 hle
    rw [List.foldl_cons]
    have hmax : (b.add t).maxSize = b.maxSize := rfl
    have := ih (b.add t) (by rw [hmax]; exact h0)
      (by rw [hmax]; exact buffer_add_le b t h0 hle)
    rw [hmax] at this
    exact this

end C3Lemmas

/-- **C3.** The replay buffer never grows past its (positive) capacity
under any sequence of `add`s from empty, `add` at capacity drops exactly
the oldest entry (`shift()`) before appending, and concretely a
capacity-3 buffer filled with transitions #1–#4 ends up holding exactly
#2, #3, #4, with #1 evicted. -/
theorem replay_buffer_capacity_fifo :
    (∀ (C : ℕ), 0 < C → ∀ ts : List DQN.Transition,
      (ts.foldl DQN.ReplayBuffer.add ⟨C, []⟩).buffer.length ≤ C)
    ∧ (∀ (b : DQN.ReplayBuffer) (t : DQN.Transition),
        b.buffer.length = b.maxSize →
        (b.add t).buffer = b.buffer.tail ++ [t])
    ∧ (((((DQN.ReplayBuffer.mk 3 []).add (trProbe 1)).add (trProbe 2)).add
          (trProbe 3)).add (trProbe 4)).buffer
        = [trProbe 2, trProbe 3, trProbe 4]
    ∧ trProbe 1 ∉ (((((DQN.ReplayBuffer.mk 3 []).add (trProbe 1)).add
          (trProbe 2)).add (trProbe 3)).add (trProbe 4)).buffer := by
  refine ⟨?_, ?_, ?_, ?_⟩
  · intro C hC ts
    exact (addAll_inv ts ⟨C, []⟩ hC (by simp)).2
  · intro b t h
    unfold DQN.ReplayBuffer.add
    rw [if_pos (le_of_eq h.symm)]
  · rfl
  · have hb : (((((DQN.ReplayBuffer.mk 3 []).add (trProbe 1)).add (trProbe 2)).add
        (trProbe 3)).add (trProbe 4)).buffer
        = [trProbe 2, trProbe 3, trProbe 4] := rfl
    rw [hb]
    simp [trProbe, DQN.Transition.mk.injEq]

/-- Witness for `replay_buffer_capacity_fifo`: four adds into a
capacity-3 buffer stay within capacity, and an add at capacity drops
the head. -/
theorem replay_buffer_capacity_fifo_witness :
    (([trProbe 1, trProbe 2, trProbe 3, trProbe 4] : List DQN.Transition).foldl
        DQN.ReplayBuffer.add ⟨3, []⟩).buffer.length ≤ 3
    ∧ ((DQN.ReplayBuffer.mk 2 [trProbe 1, trProbe 2]).add (trProbe 3)).buffer
        = (DQN.ReplayBuffer.mk 2 [trProbe 1, trProbe 2]).buffer.tail ++ [trProbe 3] :=
  ⟨replay_buffer_capacity_fifo.1 3 (by decide) _,
   replay_buffer_capacity_fifo.2.1 ⟨2, [trProbe 1, trProbe 2]⟩ (trProbe 3) rfl⟩

/-- **C5 (amended).** Load on *missing* persisted data returns
`success = false` with generation `1` and never throws, for both
agents, retaining in-memory defaults. For *corrupt* persisted data the
two agents differ: the DQN agent's `try/catch` turns a model-load or
metadata-parse failure into the same `success = false` result, and the
tabular agent also returns `success = false` when the parsed record
lacks a `Q` field — but a tabular `JSON.parse` failure is NOT caught
and propagates as an exception. -/
theorem load_missing_returns_failure :
    (∀ (σ : Type) (st : QL.TabularBrain) (parse : σ → Option QL.BrainData),
      QL.loadBrain st none parse
        = .ok (st, { success := false, generation := 1 }))
    ∧ (∀ (σ : Type) (st : QL.TabularBrain) (data : σ)
        (parse : σ → Option QL.BrainData) (parsed : QL.BrainData),
        parse data = some parsed → parsed.Q = none →
        QL.loadBrain st (some data) parse
          = .ok (st, { success := false, generation := 1 }))
    ∧ (∀ (σ : Type) (st : QL.TabularBrain) (data : σ)
        (parse : σ → Option QL.BrainData),
        parse data = none →
        QL.loadBrain st (some data) parse = .error ())
    ∧ (∀ (P σ : Type) (metaStore : Option σ)
        (parseMeta : σ → Except Unit (Option DQN.DQNMeta)) (eps : ℚ),
        DQN.loadBrain (P := P) (.error ()) metaStore parseMeta eps
          = ({ success := false, generation := 1 }, eps))
    ∧ (∀ (P σ : Type) (p : P)
        (parseMeta : σ → Except Unit (Option DQN.DQNMeta)) (eps : ℚ),
        DQN.loadBrain (.ok p) (none : Option σ) parseMeta eps
          = ({ success := false, generation := 1 }, eps))
    ∧ (∀ (P σ : Type) (p : P) (data : σ)
        (parseMeta : σ → Except Unit (Option DQN.DQNMeta)) (eps : ℚ),
        parseMeta data = .error () →
        DQN.loadBrain (.ok p) (some data) parseMeta eps
          = ({ success := false, generation := 1 }, eps)) := by
  refine ⟨fun σ st parse => rfl, ?_, ?_, fun P σ ms pm eps => rfl,
    fun P σ p pm eps => rfl, ?_⟩
  · intro σ st data parse parsed hparse hQ
    simp [QL.loadBrain, hparse, hQ]
  · intro σ st data parse hparse
    simp [QL.loadBrain, hparse]
  · intro P σ p data parseMeta eps hpm
    simp [DQN.loadBrain, hpm]

/-- Counterexample to C5 as stated: the tabular `loadBrain` does NOT
treat corrupt persisted data like missing data — a `JSON.parse` failure
propagates out as an exception (`Except.error`) instead of producing a
`success = false` result. -/
theorem load_corrupt_tabular_throws_counterexample :
    QL.loadBrain (σ := Unit) ⟨[], 3⟩ (some ()) (fun _ => none) = .error () := rfl

/-- Witness for `load_missing_returns_failure`, exercising the
hypothesis-bearing parts at concrete inputs: a parsed record without
`Q`, a tabular parse failure, and a DQN metadata parse failure. -/
theorem load_missing_returns_failure_witness :
    QL.loadBrain (σ := Unit) ⟨[], 3⟩ (some ())
        (fun _ => some { Q := none, epsilon := none, generation := none })
      = .ok (⟨[], 3⟩, { success := false, generation := 1 })
    ∧ QL.loadBrain (σ := Unit) ⟨[], 3⟩ (some ()) (fun _ => none) = .error ()
    ∧ DQN.loadBrain (P := ℕ) (σ := Unit) (.ok 0) (some ())
        (fun _ => .error ()) 3
      = ({ success := false, generation := 1 }, 3) :=
  ⟨load_missing_returns_failure.2.1 Unit ⟨[], 3⟩ ()
      (fun _ => some { Q := none, epsilon := none, generation := none })
      { Q := none, epsilon := none, generation := none } rfl rfl,
   load_missing_returns_failure.2.2.1 Unit ⟨[], 3⟩ () (fun _ => none) rfl,
   load_missing_returns_failure.2.2.2.2.2 ℕ Unit 0 () (fun _ => .error ()) 3 rfl⟩

/-- **C6 (amended).** `saveBrain(gen)` then `loadBrain()` into a fresh
agent round-trips exactly (in the rational model of JS numbers): it
yields `success = true`, the same generation, the identical Q-table,
and the same exploration rate — provided the JSON codec inverts and,
forced by the source's falsy-defaulting (`gen || 1` at save,
`parsed.epsilon || epsilon` at load), the generation and the saved
exploration rate are nonzero. -/
theorem tabular_save_load_roundtrip :
    ∀ (σ : Type) (stringify : QL.BrainData → σ) (parse : σ → Option QL.BrainData),
      (∀ bd, parse (stringify bd) = some bd) →
      ∀ (st fresh : QL.TabularBrain) (gen : ℤ), gen ≠ 0 → st.epsilon ≠ 0 →
        QL.loadBrain fresh (some (QL.saveBrain stringify st gen)) parse
          = .ok ({ Q := st.Q, epsilon := st.epsilon },
              { success := true, generation := gen }) := by
  intro σ stringify parse hrt st fresh gen hg he
  simp [QL.loadBrain, QL.saveBrain, hrt, hg, he]

/-- Counterexample to C6 as stated: saving with generation `0` loads
back generation `1` (the `gen || 1` falsy-default), so the "same
generation counter" clause fails at generation `0`. -/
theorem tabular_roundtrip_gen_zero_counterexample :
    QL.loadBrain ⟨[], 3⟩ (some (QL.saveBrain id ⟨[("a", ⟨1, 2⟩)], 3⟩ 0)) some
      = .ok (⟨[("a", ⟨1, 2⟩)], 3⟩, { success := true, generation := 1 })
    ∧ (1 : ℤ) ≠ 0 := by
  constructor
  · norm_num [QL.loadBrain, QL.saveBrain]
  · decide

/-- Witness for `tabular_save_load_roundtrip` with the identity codec,
a one-entry table, exploration rate `3` and generation `7`. -/
theorem tabular_save_load_roundtrip_witness :
    QL.loadBrain ⟨[], 5⟩ (some (QL.saveBrain id ⟨[("a", ⟨1, 2⟩)], 3⟩ 7)) some
      = .ok (⟨[("a", ⟨1, 2⟩)], 3⟩, { success := true, generation := 7 }) :=
  tabular_save_load_roundtrip QL.BrainData id some (fun bd => rfl)
    ⟨[("a", ⟨1, 2⟩)], 3⟩ ⟨[], 5⟩ 7 (by decide) (by decide)

/-- **C9.** The game's state representation is the 4-element normalized
vector `[dx/1000, dy/400, velY/1000, gapHeight/400]`, and `createModel`
outputs 2 action values — but the networks do NOT accept this vector:
`createModel` declares input dimension 7, so building the `[1, 7]`
input tensor from any game state fails (TF.js shape-mismatch error). -/
theorem dqn_state_dim_mismatch :
    (∀ dx dy velY gapHeight : ℚ,
      (Game.mkState dx dy velY gapHeight).length = 4)
    ∧ DQN.createModelOutputDim = 2
    ∧ DQN.createModelInputDim ≠ 4
    ∧ (∀ dx dy velY gapHeight : ℚ,
      DQN.tensor2d [Game.mkState dx dy velY gapHeight] 1 DQN.createModelInputDim
        = none) := by
  refine ⟨fun _ _ _ _ => rfl, rfl, by decide, fun dx dy velY gapHeight => ?_⟩
  simp [DQN.tensor2d, DQN.tensor2dOk, Game.mkState, DQN.createModelInputDim]

section C7Lemmas

open DQN

theorem sampleRandomBasic_length (b : ReplayBuffer) (bs : ℕ) (rand : ℕ → ℚ) :
    (b.sampleRandomBasic bs rand).length = bs := by
  simp [ReplayBuffer.sampleRandomBasic]

theorem rand0_bounds : ∀ k, 0 ≤ rand0 k ∧ rand0 k < 1 :=
  fun _ => ⟨le_refl 0, by norm_num [rand0]⟩

end C7Lemmas

/-- **C7 (amended).** Sampling behaviour of the three replay-buffer
strategies. On an empty buffer, the recency-mix and reward-prioritized
strategies return an empty batch, while `sampleRandomBasic` returns a
full batch of `batchSize` `undefined` entries (each read
`buffer[floor(random()*0)]` yields `undefined`). On a non-empty buffer,
with every random draw in `[0, 1)`, all three strategies only ever
return stored transitions — oversampling duplicates entries instead of
failing — and `sampleRandomBasic` always returns exactly `batchSize`
entries. -/
theorem replay_sampling_empty_and_oversample :
    (∀ (C bs : ℕ) (rand : ℕ → ℚ),
      (DQN.ReplayBuffer.mk C []).sampleRandomBasic bs rand
        = List.replicate bs none)
    ∧ (∀ (C bs : ℕ) (rand : ℕ → ℚ),
      (DQN.ReplayBuffer.mk C []).sampleLastPrioritizedAndRandom bs rand = [])
    ∧ (∀ (C bs : ℕ) (rand : ℕ → ℚ),
      (DQN.ReplayBuffer.mk C []).sampleRewardPrioritized bs rand = [])
    ∧ (∀ (b : DQN.ReplayBuffer) (bs : ℕ) (rand : ℕ → ℚ),
        0 < b.buffer.length → (∀ k, 0 ≤ rand k ∧ rand k < 1) →
        ∀ x ∈ b.sampleRandomBasic bs rand, ∃ t ∈ b.buffer, x = some t)
    ∧ (∀ (b : DQN.ReplayBuffer) (bs : ℕ) (rand : ℕ → ℚ),
        (∀ k, 0 ≤ rand k ∧ rand k < 1) →
        ∀ x ∈ b.sampleLastPrioritizedAndRandom bs rand, ∃ t ∈ b.buffer, x = some t)
    ∧ (∀ (b : DQN.ReplayBuffer) (bs : ℕ) (rand : ℕ → ℚ),
        (∀ k, 0 ≤ rand k ∧ rand k < 1) →
        ∀ x ∈ b.sampleRewardPrioritized bs rand, ∃ t ∈ b.buffer, x = some t)
    ∧ (∀ (b : DQN.ReplayBuffer) (bs : ℕ) (rand : ℕ → ℚ),
        (b.sampleRandomBasic bs rand).length = bs) :=
  ⟨sampleRandomBasic_empty, sampleMix_empty, sampleReward_empty,
    sampleRandomBasic_mem, sampleMix_mem, sampleReward_mem,
    sampleRandomBasic_length⟩

/-- Counterexample to C7 as stated: `sampleRandomBasic` on an empty
buffer does not return an empty batch — with `batchSize = 1` it returns
`[undefined]`. -/
theorem sample_empty_basic_counterexample :
    (DQN.ReplayBuffer.mk 3 []).sampleRandomBasic 1 rand0
      = [(none : Option DQN.Transition)]
    ∧ [(none : Option DQN.Transition)] ≠ ([] : List (Option DQN.Transition)) := by
  constructor
  · simpa using sampleRandomBasic_empty 3 1 rand0
  · simp

section C7WitnessLemmas

open DQN

theorem sampleMix_length_concrete :
    ((DQN.ReplayBuffer.mk 3 [trProbe 1]).sampleLastPrioritizedAndRandom 2 rand0).length
      = 2 := by
  rw [sampleMix_length]
  decide

theorem sampleReward_length_of_ne (b : ReplayBuffer) (bs : ℕ) (rand : ℕ → ℚ)
    (h : ¬ b.buffer.length = 0) :
    (b.sampleRewardPrioritized bs rand).length = bs := by
  simp only [ReplayBuffer.sampleRewardPrioritized]
  rw [if_neg h, jsShuffle_length]
  simp

end C7WitnessLemmas

/-- Witness for `replay_sampling_empty_and_oversample`: the three
membership parts applied to the first sampled entry of a concrete
one-transition buffer. -/
theorem replay_sampling_empty_and_oversample_witness :
    (∃ t ∈ (DQN.ReplayBuffer.mk 3 [trProbe 1]).buffer,
      ((DQN.ReplayBuffer.mk 3 [trProbe 1]).sampleRandomBasic 2 rand0).headI = some t)
    ∧ (∃ t ∈ (DQN.ReplayBuffer.mk 3 [trProbe 1]).buffer,
      ((DQN.ReplayBuffer.mk 3 [trProbe 1]).sampleLastPrioritizedAndRandom 2 rand0).headI
        = some t)
    ∧ (∃ t ∈ (DQN.ReplayBuffer.mk 3 [trProbe 1]).buffer,
      ((DQN.ReplayBuffer.mk 3 [trProbe 1]).sampleRewardPrioritized 1 rand0).headI
        = some t) := by
  refine ⟨?_, ?_, ?_⟩
  · have hne : (DQN.ReplayBuffer.mk 3 [trProbe 1]).sampleRandomBasic 2 rand0 ≠ [] := by
      have := sampleRandomBasic_length (DQN.ReplayBuffer.mk 3 [trProbe 1]) 2 rand0
      intro hnil
      rw [hnil] at this
      simp at this
    obtain ⟨y, ys, hcons⟩ := List.exists_cons_of_ne_nil hne
    have hy : y ∈ (DQN.ReplayBuffer.mk 3 [trProbe 1]).sampleRandomBasic 2 rand0 := by
      rw [hcons]
      exact List.mem_cons_self _ _
    rw [hcons]
    exact replay_sampling_empty_and_oversample.2.2.2.1
      (DQN.ReplayBuffer.mk 3 [trProbe 1]) 2 rand0 (by decide) rand0_bounds y hy
  · have hne : (DQN.ReplayBuffer.mk 3 [trProbe 1]).sampleLastPrioritizedAndRandom 2 rand0
        ≠ [] := by
      have := sampleMix_length_concrete
      intro hnil
      rw [hnil] at this
      simp at this
    obtain ⟨y, ys, hcons⟩ := List.exists_cons_of_ne_nil hne
    have hy : y ∈ (DQN.ReplayBuffer.mk 3 [trProbe 1]).sampleLastPrioritizedAndRandom
        2 rand0 := by
      rw [hcons]
      exact List.mem_cons_self _ _
    rw [hcons]
    exact replay_sampling_empty_and_oversample.2.2.2.2.1
      (DQN.ReplayBuffer.mk 3 [trProbe 1]) 2 rand0 rand0_bounds y hy
  · have hne : (DQN.ReplayBuffer.mk 3 [trProbe 1]).sampleRewardPrioritized 1 rand0
        ≠ [] := by
      have := sampleReward_length_of_ne (DQN.ReplayBuffer.mk 3 [trProbe 1]) 1 rand0
        (by decide)
      intro hnil
      rw [hnil] at this
      simp at this
    obtain ⟨y, ys, hcons⟩ := List.exists_cons_of_ne_nil hne
    have hy : y ∈ (DQN.ReplayBuffer.mk 3 [trProbe 1]).sampleRewardPrioritized 1 rand0 := by
      rw [hcons]
      exact List.mem_cons_self _ _
    rw [hcons]
    exact replay_sampling_empty_and_oversample.2.2.2.2.2.1
      (DQN.ReplayBuffer.mk 3 [trProbe 1]) 1 rand0 rand0_bounds y hy

/-- **C4 (amended).** The `trainingInProgress` guard of
`DQNAgent.train`: a call made while a step is in flight is a complete
no-op apart from the unconditional `stepCount` increment — it neither
queues nor touches the flag; and for a call that starts with the flag
clear, the flag afterwards equals the uncaught-exception bit of the
call: every path through the guarded `try/catch/finally` — normal
completion and caught internal training error alike — resets the flag
to `false`, while the one path that throws BEFORE the `try` (batch
tensor construction, outside the `try/finally` in the source) leaves
the flag set. -/
theorem dqn_train_flag_guard :
    ∀ {P : Type} (predict : P → List ℚ → ℚ × ℚ)
      (fit : P → List (List ℚ) → List (ℚ × ℚ) → Except Unit P)
      (rand : ℕ → ℚ) (s : DQN.AgentState P),
      (s.trainingInProgress = true →
        DQN.train predict fit rand s
          = ({ s with stepCount := s.stepCount + 1 }, false))
      ∧ (s.trainingInProgress = false →
        (DQN.train predict fit rand s).1.trainingInProgress
          = (DQN.train predict fit rand s).2) :=
  fun predict fit rand s =>
    ⟨fun h => train_overlap_noop predict fit rand s h,
     fun h => train_flag_eq_thrown predict fit rand s h⟩

/-- Counterexample to C4 as stated: an attempted training step on a
buffer of 64 game-shaped (4-dimensional) transitions passes all three
guards, sets the flag, and then throws while building the `[64, 7]`
input tensors — an exit path of an attempted step on which
`trainingInProgress` is left `true`, permanently blocking later steps. -/
theorem dqn_train_flag_leak_counterexample :
    DQN.train predict0 fitConst rand0 s4probe
      = ({ s4probe with stepCount := 2, trainingInProgress := true }, true) :=
  train_throws_of_dim predict0 fitConst rand0 s4probe 4 rfl (by decide) (by decide)
    rand0_bounds
    (fun t ht => by rw [List.eq_of_mem_replicate ht]; rfl)
    (by decide)

/-- Witness for `dqn_train_flag_guard`: the overlap part at a busy
agent, and the flag-release part at an idle agent with well-shaped
transitions and a failing `fit`. -/
theorem dqn_train_flag_guard_witness :
    DQN.train predict0 fitFail rand0 sBusyProbe
      = ({ sBusyProbe with stepCount := sBusyProbe.stepCount + 1 }, false)
    ∧ (DQN.train predict0 fitFail rand0 s7probe).1.trainingInProgress
      = (DQN.train predict0 fitFail rand0 s7probe).2 :=
  ⟨(dqn_train_flag_guard predict0 fitFail rand0 sBusyProbe).1 rfl,
   (dqn_train_flag_guard predict0 fitFail rand0 s7probe).2 rfl⟩

/-- **C8 (amended).** On every invocation of `train()` whose elapsed
step count reaches a multiple of `TARGET_UPDATE_FREQ = 500`, the target
network's parameters are synchronized from the online network's current
parameters by the end of the invocation — provided the invocation
passes the insufficient-buffer and in-progress guards and does not
abort on tensor construction (a caught internal training error still
synchronizes, since the check runs after the `finally`). Invocations
skipped by those guards return before the synchronization check. -/
theorem dqn_target_sync_on_completed_steps :
    ∀ {P : Type} (predict : P → List ℚ → ℚ × ℚ)
      (fit : P → List (List ℚ) → List (ℚ × ℚ) → Except Unit P)
      (rand : ℕ → ℚ) (s : DQN.AgentState P),
      s.trainingInProgress = false →
      (s.stepCount + 1) % DQN.TARGET_UPDATE_FREQ = 0 →
      ¬ s.replayBuffer.size < DQN.BATCH_SIZE →
      (DQN.train predict fit rand s).2 = false →
      (DQN.train predict fit rand s).1.targetModel
        = (DQN.train predict fit rand s).1.model :=
  fun predict fit rand s hflag h500 h2 hnothrow =>
    train_syncs_target predict fit rand s hflag h500 h2 hnothrow

/-- Counterexample to C8 as stated: an invocation whose elapsed step
count is exactly 500 but whose training step is skipped by the
insufficient-buffer guard returns early and does NOT synchronize — the
target parameters stay different from the online parameters. -/
theorem dqn_target_sync_skipped_counterexample :
    (DQN.train predict0 fitConst rand0 sEmptyProbe).1.stepCount
        % DQN.TARGET_UPDATE_FREQ = 0
    ∧ (DQN.train predict0 fitConst rand0 sEmptyProbe).1.model = 1
    ∧ (DQN.train predict0 fitConst rand0 sEmptyProbe).1.targetModel = 0
    ∧ (DQN.train predict0 fitConst rand0 sEmptyProbe).1.targetModel
        ≠ (DQN.train predict0 fitConst rand0 sEmptyProbe).1.model := by
  refine ⟨?_, ?_, ?_, ?_⟩ <;> decide

/-- Witness for `dqn_target_sync_on_completed_steps` at step 499 → 500
with a full buffer of well-shaped transitions. -/
theorem dqn_target_sync_on_completed_steps_witness :
    (DQN.train predict0 fitConst rand0 s7probe500).1.targetModel
      = (DQN.train predict0 fitConst rand0 s7probe500).1.model := by
  have hnothrow : (DQN.train predict0 fitConst rand0 s7probe500).2 = false :=
    train_completes_of_dim7 predict0 fitConst rand0 s7probe500 rfl (by decide)
      (by decide) rand0_bounds
      (fun t ht => by rw [List.eq_of_mem_replicate ht]; exact ⟨rfl, rfl⟩)
  exact dqn_target_sync_on_completed_steps predict0 fitConst rand0 s7probe500 rfl
    (by decide) (by decide) hnothrow
